import Mathlib

/-!
Verification of the SOF `google_rtc_audio_processing` component
(`src/audio/google/google_rtc_audio_processing.c`, int16 build, i.e.
`CONFIG_COMP_GOOGLE_RTC_USE_32_BIT_FLOAT_API` disabled) and of the
`ceil_divide` helper from `sof/math/numbers.h`.

The component code is embedded shallowly: the private component data
`struct google_rtc_audio_processing_comp_data` becomes `CompData`, the opaque
GoogleRtcAudioProcessing library instance becomes an explicit `AlgState`
record together with an `AlgBehavior` record carrying the return codes the
opaque library produces for the calls made during one invocation, and each
entry point becomes a pure function returning the updated state together with
its `int` return code.  Stream pins are records of the values the
`source_*`/`sink_*` getters return.  The de-interlace/interlace loops and the
ring-buffer cursor discipline of `process()` are embedded as list functions.
-/

namespace GoogleRtcAec

/-- Linux errno `EINVAL`; the component reports invalid input as `-EINVAL`. -/
def EINVAL : Int := 22

/-- Kconfig constant `CONFIG_COMP_GOOGLE_RTC_AUDIO_PROCESSING_SAMPLE_RATE_HZ`
(default 48000). -/
def configSampleRateHz : Nat := 48000

/-- `GOOGLE_RTC_AUDIO_PROCESSING_FREQENCY_TO_PERIOD_FRAMES`: the cycle frame
count is the sample rate divided by this constant. -/
def frequencyToPeriodFrames : Nat := 100

/-- Frame encodings (`enum sof_ipc_frame`), restricted to the cases the
component distinguishes: `SOF_IPC_FRAME_S16_LE` passes the `switch` in
`prepare()` (with `CONFIG_FORMAT_S16LE` enabled); everything else is
rejected. -/
inductive FrameFormat where
  | s16le
  | s24le
  | s32le
  | float32
deriving DecidableEq

/-- Decoded configuration blob: the outputs of
`GoogleRtcAudioProcessingParseSofConfigMessage`.  Every field is
independently optional; the value slot of an absent field holds whatever the
parser left in the corresponding local variable.  The float-valued delay and
gain are carried opaquely as integers because the component only stores and
forwards them. -/
structure ParsedConfig where
  configPresent : Bool
  config : List Nat
  inChPresent : Bool
  inCh : Int
  outChPresent : Bool
  outCh : Int
  delayPresent : Bool
  delay : Int
  gainPresent : Bool
  gain : Int
deriving DecidableEq

/-- Abstract state of the opaque GoogleRtcAudioProcessing library instance:
the last applied tuning bytes, the stream formats from
`GoogleRtcAudioProcessingSetStreamFormats`, and the two scalar parameters
set through `GoogleRtcAudioProcessingParameters`. -/
structure AlgState where
  tuning : List Nat
  fmtRate : Nat
  fmtInCh : Int
  fmtOutCh : Int
  fmtRefRate : Nat
  fmtRefCh : Int
  headroom : Int
  echoDelay : Int
deriving DecidableEq

/-- Return codes the opaque library yields for the (at most three) calls a
single `google_rtc_audio_processing_reconfigure` invocation can make. -/
structure AlgBehavior where
  reconfRet : Int
  setFormatsRet : Int
  paramsRet : Int
deriving DecidableEq

/-- Calls made into the opaque library during reconfigure, recorded as a
trace so that a no-op run is visibly call-free. -/
inductive AlgCall where
  | reconfig (bytes : List Nat)
  | setFormats (rate : Nat) (inCh outCh : Int) (refRate : Nat) (refCh : Int)
  | setParams (headroom echoDelay : Option Int)
deriving DecidableEq

/-- The fields of `struct google_rtc_audio_processing_comp_data` that the
control flow of the embedded entry points reads or writes. -/
structure CompData where
  num_frames : Nat
  num_aec_reference_channels : Int
  num_capture_channels : Int
  reconfigure : Bool
  aec_reference_source : Nat
  raw_microphone_source : Nat
deriving DecidableEq

/-- State of the tuning-blob handler as `reconfigure` observes it through
`comp_is_current_data_blob_valid` / `comp_is_new_data_blob_available` /
`comp_get_data_blob`:

* `absent`: no blob has ever arrived, both validity checks fail;
* `empty`: `comp_get_data_blob` reports size 0;
* `invalid`: a NULL data pointer with nonzero size;
* `present p`: a valid non-empty blob whose decoded form is `p`. -/
inductive BlobState where
  | absent
  | empty
  | invalid
  | present (p : ParsedConfig)
deriving DecidableEq

/-- Effect of `GoogleRtcAudioProcessingParameters(state, headroom, delay)`:
a present argument overwrites the stored value, a NULL argument leaves the
current internal value untouched. -/
def setParamsState (alg : AlgState) (h d : Option Int) : AlgState :=
  { alg with headroom := h.getD alg.headroom, echoDelay := d.getD alg.echoDelay }

/-- Lines 200-232 of `google_rtc_audio_processing_reconfigure`: if the delay
or the gain field is present, both are applied together through one
`GoogleRtcAudioProcessingParameters` call, the absent one passed as NULL. -/
def reconfigureParamsStep (p : ParsedConfig) (beh : AlgBehavior) (cd : CompData)
    (alg : AlgState) (calls : List AlgCall) : CompData × AlgState × List AlgCall × Int :=
  if p.delayPresent || p.gainPresent then
    let h := if p.gainPresent then some p.gain else none
    let d := if p.delayPresent then some p.delay else none
    let calls := calls ++ [AlgCall.setParams h d]
    if beh.paramsRet ≠ 0 then (cd, alg, calls, beh.paramsRet)
    else (cd, setParamsState alg h d, calls, 0)
  else (cd, alg, calls, 0)

/-- Lines 169-198 of `google_rtc_audio_processing_reconfigure`: the channel
count fields.  When both are present they must agree or the call fails with
`-EINVAL`; the new count is then pushed to the library through
`GoogleRtcAudioProcessingSetStreamFormats`.  The `else if
(num_capture_input_channels_present)` branch of the source assigns
`num_capture_output_channels`, and the embedding reproduces that
assignment verbatim. -/
def reconfigureChannelsStep (p : ParsedConfig) (beh : AlgBehavior) (cd : CompData)
    (alg : AlgState) (calls : List AlgCall) : CompData × AlgState × List AlgCall × Int :=
  if p.inChPresent || p.outChPresent then
    if p.inChPresent && p.outChPresent && (p.inCh != p.outCh) then
      (cd, alg, calls, -EINVAL)
    else
      let newCh : Int :=
        if p.inChPresent && p.outChPresent then p.inCh
        else if p.inChPresent then p.outCh
        else p.outCh
      let cd := { cd with num_capture_channels := newCh }
      let calls := calls ++ [AlgCall.setFormats configSampleRateHz cd.num_capture_channels
        cd.num_capture_channels configSampleRateHz cd.num_aec_reference_channels]
      if beh.setFormatsRet ≠ 0 then (cd, alg, calls, beh.setFormatsRet)
      else
        let alg := { alg with
          fmtRate := configSampleRateHz
          fmtInCh := cd.num_capture_channels
          fmtOutCh := cd.num_capture_channels
          fmtRefRate := configSampleRateHz
          fmtRefCh := cd.num_aec_reference_channels }
        reconfigureParamsStep p beh cd alg calls
  else reconfigureParamsStep p beh cd alg calls

/-- `google_rtc_audio_processing_reconfigure` (lines 90-235).  With no blob
ever supplied or an empty blob it returns 0 untouched; a NULL blob with
nonzero size yields `-EINVAL`.  For a valid non-empty blob the pending flag
is cleared first (line 127), then each decoded field is applied in source
order: tuning payload, channel counts, delay/gain. -/
def google_rtc_audio_processing_reconfigure (cd : CompData) (alg : AlgState)
    (blob : BlobState) (beh : AlgBehavior) : CompData × AlgState × List AlgCall × Int :=
  match blob with
  | BlobState.absent => (cd, alg, [], 0)
  | BlobState.empty => (cd, alg, [], 0)
  | BlobState.invalid => (cd, alg, [], -EINVAL)
  | BlobState.present p =>
    let cd := { cd with reconfigure := false }
    if p.configPresent then
      if beh.reconfRet ≠ 0 then (cd, alg, [AlgCall.reconfig p.config], beh.reconfRet)
      else reconfigureChannelsStep p beh cd { alg with tuning := p.config }
        [AlgCall.reconfig p.config]
    else reconfigureChannelsStep p beh cd alg []

/-- The per-cycle apply gate of `google_rtc_audio_processing_process`
(lines 669-673): reconfigure runs only when the pending flag is raised. -/
def applyStep (cd : CompData) (alg : AlgState) (blob : BlobState) (beh : AlgBehavior) :
    CompData × AlgState × List AlgCall × Int :=
  if cd.reconfigure then google_rtc_audio_processing_reconfigure cd alg blob beh
  else (cd, alg, [], 0)

/-- `google_rtc_audio_processing_reset` (lines 594-599): the body only logs
and returns 0. -/
def google_rtc_audio_processing_reset (cd : CompData) : CompData × Int :=
  (cd, 0)

/-- `convert_google_aec_format_to_int16` in the int16 build returns its
argument unchanged. -/
def convert_google_aec_format_to_int16 (data : Int) : Int := data

/-- `convert_int16_to_google_aec_format` in the int16 build returns its
argument unchanged. -/
def convert_int16_to_google_aec_format (data : Int) : Int := data

/-- The de-interlace loops of `process()` (lines 697-705 and 727-735),
without wraparound: channel `ch` of the per-channel scratch receives the
converted sample at interleaved index `i * numCh + ch`. -/
def deinterlace (numFrames numCh : Nat) (src : List Int) : List (List Int) :=
  (List.range numCh).map (fun ch =>
    (List.range numFrames).map (fun i =>
      convert_int16_to_google_aec_format (src.getD (i * numCh + ch) 0)))

/-- The interlace loop of `process()` (lines 756-763), without wraparound:
interleaved index `i * numCh + ch` of the output receives the converted
sample `i` of channel `ch`. -/
def interlace (numFrames numCh : Nat) (bufs : List (List Int)) : List Int :=
  List.flatten ((List.range numFrames).map (fun i =>
    (List.range numCh).map (fun ch =>
      convert_google_aec_format_to_int16 ((bufs.getD ch []).getD i 0))))

/-- The cursor discipline shared by the three per-frame loops of `process()`
(reference read, lines 697-705; capture read, lines 727-735; output write,
lines 756-763).  Each iteration accesses the byte span
`[cursor, cursor + frameBytes)` of the acquired region, advances the cursor
by one frame, and wraps the cursor to the region start when it has reached
or passed the region end `regionLen`.  The function returns the list of the
accessed spans. -/
def wrapSpans (numFrames frameBytes regionLen cursor : Nat) : List (Nat × Nat) :=
  match numFrames with
  | 0 => []
  | n + 1 =>
    let next := cursor + frameBytes
    (cursor, next) :: wrapSpans n frameBytes regionLen (if next ≥ regionLen then 0 else next)

/-- Buffer-interchange events of one `process()` cycle, with the byte count
requested from or handed back to the stream API. -/
inductive Ev where
  | applyStep
  | acquireRef (n : Nat)
  | analyze
  | releaseRef (n : Nat)
  | acquireSrc (n : Nat)
  | processCapture
  | releaseSrc (n : Nat)
  | acquireDst (n : Nat)
  | commitDst (n : Nat)
deriving DecidableEq

/-- `google_rtc_audio_processing_process` (lines 634-771) at the level of
its stream-API interactions.  The pending reconfigure is applied first and a
failure aborts the cycle; otherwise the cycle acquires one cycle's worth of
bytes from the reference source, analyzes and releases it, does the same for
the microphone source, and acquires and commits the sink buffer.  The byte
count for the sink request is `num_of_bytes_to_process` as left by the
microphone stream (line 750: same number of bytes as for the mic stream). -/
def google_rtc_audio_processing_process (cd : CompData) (alg : AlgState)
    (blob : BlobState) (beh : AlgBehavior) (refFrameBytes srcFrameBytes : Nat) :
    CompData × AlgState × List Ev × Int :=
  let gate := applyStep cd alg blob beh
  let evs : List Ev := if cd.reconfigure then [Ev.applyStep] else []
  let cd1 := gate.1
  let alg1 := gate.2.1
  let ret := gate.2.2.2
  if ret ≠ 0 then (cd1, alg1, evs, ret)
  else
    let nRef := cd1.num_frames * refFrameBytes
    let nSrc := cd1.num_frames * srcFrameBytes
    (cd1, alg1, evs ++ [Ev.acquireRef nRef, Ev.analyze, Ev.releaseRef nRef,
      Ev.acquireSrc nSrc, Ev.processCapture, Ev.releaseSrc nSrc,
      Ev.acquireDst nSrc, Ev.commitDst nSrc], 0)

/-- Values the `source_*` getters return for one source pin: whether
`IPC4_SINK_QUEUE_ID(source_get_id())` equals `SOF_AEC_FEEDBACK_QUEUE_ID`,
the channel count, the frame byte size, and `source_get_min_available`. -/
structure SourceInfo where
  isFeedback : Bool
  channels : Int
  frameBytes : Nat
  minAvailable : Nat
deriving DecidableEq

/-- Values the `sink_*` getters return for the output pin. -/
structure SinkInfo where
  rate : Nat
  frameFmt : FrameFormat
  channels : Int
  frameBytes : Nat
  minFreeSpace : Nat
deriving DecidableEq

/-- Placeholder a list lookup falls back to; prepare only indexes with the
positions its own classification loop stored. -/
def defaultSource : SourceInfo :=
  { isFeedback := false, channels := 0, frameBytes := 0, minAvailable := 0 }

/-- Placeholder for the sink lookup. -/
def defaultSink : SinkInfo :=
  { rate := 0, frameFmt := FrameFormat.s16le, channels := 0, frameBytes := 0, minFreeSpace := 0 }

/-- The classification loop of `prepare()` (lines 493-507): each feedback
source becomes the AEC reference, every other source the raw microphone;
the loop also records the channel counts it saw (0 when no source of that
role occurs, matching the initializers of `aec_channels` and
`microphone_stream_channels`). -/
def classifySources (cd : CompData) (srcs : List SourceInfo) : CompData × Int × Int :=
  srcs.enum.foldl (fun acc x =>
    if x.2.isFeedback then
      ({ acc.1 with aec_reference_source := x.1 }, x.2.channels, acc.2.2)
    else
      ({ acc.1 with raw_microphone_source := x.1 }, acc.2.1, x.2.channels))
    (cd, 0, 0)

/-- The check chain of `prepare()` after the classification loop (lines
520-588): channel-count checks, frame format and rate checks, exact IBS/OBS
sizing checks, then the reconfigure call.  Every local check fails with
`-EINVAL`; the final return code is the reconfigure result. -/
def prepareChecks (cd : CompData) (alg : AlgState) (blob : BlobState) (beh : AlgBehavior)
    (aecCh micCh : Int) (refSrc micSrc : SourceInfo) (snk : SinkInfo) :
    CompData × AlgState × Int :=
  if cd.num_aec_reference_channels > aecCh then (cd, alg, -EINVAL)
  else if cd.num_capture_channels > micCh then (cd, alg, -EINVAL)
  else if cd.num_capture_channels > snk.channels then (cd, alg, -EINVAL)
  else if snk.frameFmt ≠ FrameFormat.s16le then (cd, alg, -EINVAL)
  else if snk.rate ≠ configSampleRateHz then (cd, alg, -EINVAL)
  else if cd.num_frames * micSrc.frameBytes ≠ micSrc.minAvailable then (cd, alg, -EINVAL)
  else if cd.num_frames * snk.frameBytes ≠ snk.minFreeSpace then (cd, alg, -EINVAL)
  else if cd.num_frames * refSrc.frameBytes ≠ refSrc.minAvailable then (cd, alg, -EINVAL)
  else
    let r := google_rtc_audio_processing_reconfigure cd alg blob beh
    (r.1, r.2.1, r.2.2.2)

/-- `google_rtc_audio_processing_prepare` (lines 465-592): pin cardinality
checks, role classification, then the check chain over the values the
classification recorded and the getter values of sink 0. -/
def google_rtc_audio_processing_prepare (cd : CompData) (alg : AlgState)
    (blob : BlobState) (beh : AlgBehavior) (srcs : List SourceInfo)
    (snks : List SinkInfo) : CompData × AlgState × Int :=
  if srcs.length ≠ 2 then (cd, alg, -EINVAL)
  else if snks.length ≠ 1 then (cd, alg, -EINVAL)
  else
    let cls := classifySources cd srcs
    prepareChecks cls.1 alg blob beh cls.2.1 cls.2.2
      (srcs.getD cls.1.aec_reference_source defaultSource)
      (srcs.getD cls.1.raw_microphone_source defaultSource)
      (snks.getD 0 defaultSink)

/-- Unsigned 32-bit two's complement representation of an `int` value, the
form on which the C expression `(a ^ b) & (1 << 31)` operates. -/
def toU32 (x : Int) : Nat := (x % (4294967296 : Int)).toNat

/-- `ceil_divide` from `sof/math/numbers.h` (lines 57-71): truncating
division, then an increment when the operand sign bits agree and the
multiply-back check detects a nonzero remainder. -/
def ceil_divide (a b : Int) : Int :=
  let c := a.tdiv b
  if ((toU32 a ^^^ toU32 b) &&& 2147483648 = 0) ∧ c * b ≠ a then c + 1 else c

/-! Concrete fixtures used by the counterexamples and witnesses. -/

/-- Component data as `init()` leaves it for a stereo configuration:
480 frames per cycle at 48 kHz, pending-reconfigure raised (line 420). -/
def cd0 : CompData :=
  { num_frames := configSampleRateHz / frequencyToPeriodFrames
    num_aec_reference_channels := 2
    num_capture_channels := 2
    reconfigure := true
    aec_reference_source := 0
    raw_microphone_source := 1 }

/-- A library instance state. -/
def alg0 : AlgState :=
  { tuning := []
    fmtRate := configSampleRateHz
    fmtInCh := 2
    fmtOutCh := 2
    fmtRefRate := configSampleRateHz
    fmtRefCh := 2
    headroom := 1
    echoDelay := 0 }

/-- A library that accepts every call. -/
def beh0 : AlgBehavior := { reconfRet := 0, setFormatsRet := 0, paramsRet := 0 }

/-- A blob whose only present channel field is the input channel count 3;
the parser left 0 in the output slot. -/
def inputOnlyBlob : ParsedConfig :=
  { configPresent := false, config := [], inChPresent := true, inCh := 3
    outChPresent := false, outCh := 0, delayPresent := false, delay := 0
    gainPresent := false, gain := 0 }

/-- A blob carrying only a tuning payload. -/
def pendingBlob : ParsedConfig :=
  { configPresent := true, config := [7], inChPresent := false, inCh := 0
    outChPresent := false, outCh := 0, delayPresent := false, delay := 0
    gainPresent := false, gain := 0 }

/-- A blob with both channel fields present and unequal. -/
def mismatchBlob : ParsedConfig :=
  { configPresent := false, config := [], inChPresent := true, inCh := 1
    outChPresent := true, outCh := 2, delayPresent := false, delay := 0
    gainPresent := false, gain := 0 }

/-- A blob with a tuning payload and both channel fields present, unequal. -/
def mismatchTunedBlob : ParsedConfig :=
  { configPresent := true, config := [5], inChPresent := true, inCh := 1
    outChPresent := true, outCh := 2, delayPresent := false, delay := 0
    gainPresent := false, gain := 0 }

/-- Component data with the pending flag clear. -/
def cdIdle : CompData := { cd0 with reconfigure := false }

/-! Helper lemmas about the reconfigure steps. -/

/-- The delay/gain step never touches the component data. -/
theorem reconfigureParamsStep_cd (p : ParsedConfig) (beh : AlgBehavior) (cd : CompData)
    (alg : AlgState) (calls : List AlgCall) :
    (reconfigureParamsStep p beh cd alg calls).1 = cd := by
  unfold reconfigureParamsStep
  split_ifs <;> rfl

/-- The channels step never touches the pending-reconfigure flag. -/
theorem reconfigureChannelsStep_flag (p : ParsedConfig) (beh : AlgBehavior) (cd : CompData)
    (alg : AlgState) (calls : List AlgCall) :
    (reconfigureChannelsStep p beh cd alg calls).1.reconfigure = cd.reconfigure := by
  unfold reconfigureChannelsStep
  split_ifs <;> simp [reconfigureParamsStep_cd]

/-- A reconfigure run on a valid non-empty blob always leaves the
pending-reconfigure flag cleared, whatever its outcome: the flag is cleared
at line 127 before any of the failure paths. -/
theorem reconfigure_present_flag (cd : CompData) (alg : AlgState) (p : ParsedConfig)
    (beh : AlgBehavior) :
    (google_rtc_audio_processing_reconfigure cd alg (BlobState.present p) beh).1.reconfigure
      = false := by
  by_cases hc : p.configPresent = true <;> by_cases hr : beh.reconfRet = 0 <;>
    simp [google_rtc_audio_processing_reconfigure, hc, hr, reconfigureChannelsStep_flag]

/-! Claim theorems. -/

/-- C1 (code_bug evidence): on a blob whose only present channel field is
the input channel count (value 3, the absent output slot holding 0), the
reconfigure call returns success yet installs 0 — the value of the absent
output field — as the capture channel count instead of the present value 3:
line 177 assigns `num_capture_output_channels` inside the
`num_capture_input_channels_present` branch. -/
theorem reconfigure_input_only_channel_bug :
    (google_rtc_audio_processing_reconfigure cd0 alg0 (BlobState.present inputOnlyBlob) beh0).2.2.2
      = 0 ∧
    (google_rtc_audio_processing_reconfigure cd0 alg0
      (BlobState.present inputOnlyBlob) beh0).1.num_capture_channels = 0 ∧
    inputOnlyBlob.inCh = 3 := by
  decide

/-- C2: a decoded blob with both channel-count fields present and unequal
makes reconfigure fail with `-EINVAL`, leaving the stored capture channel
count, the stream formats and the delay/gain parameters exactly as they
were (provided a tuning payload, if one is present, is itself accepted). -/
theorem reconfigure_channel_mismatch_no_update (cd : CompData) (alg : AlgState)
    (p : ParsedConfig) (beh : AlgBehavior)
    (hin : p.inChPresent = true) (hout : p.outChPresent = true)
    (hne : p.inCh ≠ p.outCh) (htun : p.configPresent = true → beh.reconfRet = 0) :
    (google_rtc_audio_processing_reconfigure cd alg (BlobState.present p) beh).2.2.2
      = -EINVAL ∧
    (google_rtc_audio_processing_reconfigure cd alg
      (BlobState.present p) beh).1.num_capture_channels = cd.num_capture_channels ∧
    (google_rtc_audio_processing_reconfigure cd alg (BlobState.present p) beh).2.1.headroom
      = alg.headroom ∧
    (google_rtc_audio_processing_reconfigure cd alg (BlobState.present p) beh).2.1.echoDelay
      = alg.echoDelay ∧
    (google_rtc_audio_processing_reconfigure cd alg (BlobState.present p) beh).2.1.fmtInCh
      = alg.fmtInCh ∧
    (google_rtc_audio_processing_reconfigure cd alg (BlobState.present p) beh).2.1.fmtOutCh
      = alg.fmtOutCh := by
  have hmm : (p.inChPresent && p.outChPresent && (p.inCh != p.outCh)) = true := by
    simp [hin, hout, hne]
  by_cases hc : p.configPresent = true
  · simp [google_rtc_audio_processing_reconfigure, hc, htun hc,
      reconfigureChannelsStep, hin, hout, hne, hmm]
  · simp [google_rtc_audio_processing_reconfigure, hc,
      reconfigureChannelsStep, hin, hout, hne, hmm]

/-- Witness for C2 at a concrete mismatching blob with a tuning payload. -/
theorem reconfigure_channel_mismatch_no_update_witness :
    (google_rtc_audio_processing_reconfigure cd0 alg0
      (BlobState.present mismatchTunedBlob) beh0).2.2.2 = -EINVAL ∧
    (google_rtc_audio_processing_reconfigure cd0 alg0
      (BlobState.present mismatchTunedBlob) beh0).1.num_capture_channels
      = cd0.num_capture_channels ∧
    (google_rtc_audio_processing_reconfigure cd0 alg0
      (BlobState.present mismatchTunedBlob) beh0).2.1.headroom = alg0.headroom ∧
    (google_rtc_audio_processing_reconfigure cd0 alg0
      (BlobState.present mismatchTunedBlob) beh0).2.1.echoDelay = alg0.echoDelay ∧
    (google_rtc_audio_processing_reconfigure cd0 alg0
      (BlobState.present mismatchTunedBlob) beh0).2.1.fmtInCh = alg0.fmtInCh ∧
    (google_rtc_audio_processing_reconfigure cd0 alg0
      (BlobState.present mismatchTunedBlob) beh0).2.1.fmtOutCh = alg0.fmtOutCh :=
  reconfigure_channel_mismatch_no_update cd0 alg0 mismatchTunedBlob beh0 rfl rfl
    (by decide) (fun _ => rfl)

/-- C3 (amended): `reset()` returns success and is a no-op: every field of
the component data, the pending-reconfigure flag included, is retained. -/
theorem reset_noop (cd : CompData) : google_rtc_audio_processing_reset cd = (cd, 0) := rfl

/-- C3 (counterexample): after a successful `reset()` on a component whose
pending flag is raised, the flag is still raised, and the next cycle's apply
step does forward the previously pending blob to the library. -/
theorem reset_pending_counterexample :
    (google_rtc_audio_processing_reset cd0).2 = 0 ∧
    (google_rtc_audio_processing_reset cd0).1.reconfigure = true ∧
    (applyStep (google_rtc_audio_processing_reset cd0).1 alg0
      (BlobState.present pendingBlob) beh0).2.2.1 = [AlgCall.reconfig [7]] := by
  decide

/-- C6: with the pending-reconfigure flag clear, or with no blob ever
supplied, the per-cycle apply step returns success, makes no call into the
library, and leaves the component data and the library state unchanged. -/
theorem apply_step_noop (cd : CompData) (alg : AlgState) (blob : BlobState)
    (beh : AlgBehavior) (h : cd.reconfigure = false ∨ blob = BlobState.absent) :
    applyStep cd alg blob beh = (cd, alg, [], 0) := by
  rcases h with h | h
  · simp [applyStep, h]
  · subst h
    by_cases hr : cd.reconfigure <;>
      simp [applyStep, hr, google_rtc_audio_processing_reconfigure]

/-- Witness for C6: apply step with the flag clear and a pending blob. -/
theorem apply_step_noop_witness :
    applyStep cdIdle alg0 (BlobState.present pendingBlob) beh0 = (cdIdle, alg0, [], 0) :=
  apply_step_noop cdIdle alg0 (BlobState.present pendingBlob) beh0 (Or.inl rfl)

/-- C9: when reconfigure obtained a valid non-empty blob and failed, the
pending flag is nevertheless left cleared, so the next cycle's apply step is
a no-op and does not retry that blob. -/
theorem reconfigure_failure_clears_pending (cd : CompData) (alg : AlgState)
    (p : ParsedConfig) (beh : AlgBehavior)
    (_hfail : (google_rtc_audio_processing_reconfigure cd alg (BlobState.present p) beh).2.2.2
      ≠ 0) :
    (google_rtc_audio_processing_reconfigure cd alg (BlobState.present p) beh).1.reconfigure
      = false ∧
    applyStep (google_rtc_audio_processing_reconfigure cd alg (BlobState.present p) beh).1
      (google_rtc_audio_processing_reconfigure cd alg (BlobState.present p) beh).2.1
      (BlobState.present p) beh =
      ((google_rtc_audio_processing_reconfigure cd alg (BlobState.present p) beh).1,
        (google_rtc_audio_processing_reconfigure cd alg (BlobState.present p) beh).2.1,
        [], 0) := by
  have hflag := reconfigure_present_flag cd alg p beh
  exact ⟨hflag, by simp [applyStep, hflag]⟩

/-- Witness for C9 at a concrete failing blob with unequal channel counts. -/
theorem reconfigure_failure_clears_pending_witness :
    (google_rtc_audio_processing_reconfigure cd0 alg0
      (BlobState.present mismatchBlob) beh0).1.reconfigure = false ∧
    applyStep (google_rtc_audio_processing_reconfigure cd0 alg0
        (BlobState.present mismatchBlob) beh0).1
      (google_rtc_audio_processing_reconfigure cd0 alg0
        (BlobState.present mismatchBlob) beh0).2.1
      (BlobState.present mismatchBlob) beh0 =
      ((google_rtc_audio_processing_reconfigure cd0 alg0
          (BlobState.present mismatchBlob) beh0).1,
        (google_rtc_audio_processing_reconfigure cd0 alg0
          (BlobState.present mismatchBlob) beh0).2.1,
        [], 0) :=
  reconfigure_failure_clears_pending cd0 alg0 mismatchBlob beh0 (by decide)

/-! C4: wraparound discipline of the per-frame loops. -/

/-- C4 (counterexample): a circular region of contiguous length 6 bytes,
shorter than the requested span of 2 frames of 4 bytes, on which the loop
nevertheless accesses bytes `[4, 8)`, crossing the region end: the wrap
check fires only after the cursor itself reaches or passes the end, so a
region length that is not a multiple of the frame size is overrun. -/
theorem wrap_spans_overrun_counterexample :
    6 < 2 * 4 ∧ (4, 8) ∈ wrapSpans 2 4 6 0 ∧ ¬((4, 8).2 ≤ 6) := by
  decide

/-- C4 (amended): when the region length and the initial cursor offset are
multiples of the frame byte size (as the exact IBS/OBS sizing of `prepare`
arranges), no access of the loop crosses the region end: the cursor is
wrapped back to the region start before any access beyond it.  This is the
uniform discipline of the reference read, the capture read and the output
write loops, which all instantiate `wrapSpans`. -/
theorem wrap_spans_aligned_bounded (n fB L c0 : Nat) (_hfB : 0 < fB) (hL : fB ∣ L)
    (hc : fB ∣ c0) (hlt : c0 < L) : ∀ s ∈ wrapSpans n fB L c0, s.2 ≤ L := by
  induction n generalizing c0 with
  | zero => intro s hs; simp [wrapSpans] at hs
  | succ n ih =>
    intro s hs
    obtain ⟨k, hk⟩ := hc
    obtain ⟨m, hm⟩ := hL
    have hkm : k < m := by
      have := hlt
      rw [hk, hm] at this
      exact Nat.lt_of_mul_lt_mul_left this
    have hstep : c0 + fB ≤ L := by
      have h1 : fB * (k + 1) ≤ fB * m := Nat.mul_le_mul_left fB hkm
      calc c0 + fB = fB * (k + 1) := by rw [hk]; ring
        _ ≤ fB * m := h1
        _ = L := hm.symm
    simp only [wrapSpans, List.mem_cons] at hs
    rcases hs with hs | hs
    · subst hs; exact hstep
    · by_cases hwrap : c0 + fB ≥ L
      · rw [if_pos hwrap] at hs
        exact ih 0 (Dvd.intro 0 rfl) (Nat.lt_of_le_of_lt (Nat.zero_le c0) hlt) s hs
      · rw [if_neg hwrap] at hs
        exact ih (c0 + fB) ⟨k + 1, by rw [hk]; ring⟩ (Nat.lt_of_not_le hwrap) s hs

/-- Witness for C4 at a 3-frame span over an aligned 8-byte region: the
wrapped second access ends exactly at the region end. -/
theorem wrap_spans_aligned_bounded_witness : (4, 8).2 ≤ 8 :=
  wrap_spans_aligned_bounded 3 4 8 0 (by decide) (by decide) (by decide) (by decide)
    (4, 8) (by decide)

/-! C7: de-interlace then interlace round-trip. -/

/-- Flattening the per-frame channel rows enumerates the interleaved
indices `i * nC + ch` in increasing order. -/
theorem flatten_range_map {α : Type} (nC : Nat) (h : Nat → α) (nF : Nat) :
    List.flatten ((List.range nF).map (fun i =>
      (List.range nC).map (fun ch => h (i * nC + ch)))) =
    (List.range (nF * nC)).map h := by
  induction nF with
  | zero => simp
  | succ nF ih =>
    rw [List.range_succ, List.map_append, List.flatten_append, ih, Nat.succ_mul,
      List.range_add, List.map_append, List.map_map]
    simp

/-- Reading a list back by positions reproduces it. -/
theorem map_getD_range_eq (src : List Int) :
    (List.range src.length).map (fun k => src.getD k 0) = src := by
  induction src with
  | nil => rfl
  | cons x xs ih =>
    rw [List.length_cons, List.range_succ_eq_map, List.map_cons, List.map_map]
    refine congrArg (x :: ·) ?_
    calc (List.range xs.length).map ((fun k => (x :: xs).getD k 0) ∘ Nat.succ)
        = (List.range xs.length).map (fun k => xs.getD k 0) := by
          refine List.map_congr_left fun a _ => ?_
          simp [List.getD_cons_succ]
      _ = xs := ih

/-- C7: de-interlacing an interleaved int16 stream of matching frame and
channel counts into per-channel scratch rows and interlacing it back
reproduces the original samples exactly; in the fixed-point build both
conversions are the identity. -/
theorem deinterlace_interlace_roundtrip (numFrames numCh : Nat) (src : List Int)
    (hlen : src.length = numFrames * numCh) :
    interlace numFrames numCh (deinterlace numFrames numCh src) = src := by
  unfold interlace deinterlace
  unfold convert_int16_to_google_aec_format convert_google_aec_format_to_int16
  have hrows : ∀ i ∈ List.range numFrames,
      (List.range numCh).map (fun ch =>
        ((((List.range numCh).map (fun ch =>
          (List.range numFrames).map (fun i => src.getD (i * numCh + ch) 0))).getD ch []).getD
          i 0)) =
      (List.range numCh).map (fun ch => src.getD (i * numCh + ch) 0) := by
    intro i hi
    refine List.map_congr_left fun ch hch => ?_
    rw [List.mem_range] at hi hch
    have hlench : ch < ((List.range numCh).map (fun ch =>
        (List.range numFrames).map (fun i => src.getD (i * numCh + ch) 0))).length := by
      simpa using hch
    rw [List.getD_eq_getElem _ _ hlench, List.getElem_map, List.getElem_range]
    have hleni : i < ((List.range numFrames).map
        (fun i => src.getD (i * numCh + ch) 0)).length := by
      simpa using hi
    rw [List.getD_eq_getElem _ _ hleni, List.getElem_map, List.getElem_range]
  rw [List.map_congr_left hrows, flatten_range_map numCh (fun k => src.getD k 0) numFrames,
    ← hlen, map_getD_range_eq]

/-- Witness for C7 at a concrete 2-frame stereo stream. -/
theorem deinterlace_interlace_roundtrip_witness :
    ([1, 2, 3, 4] : List Int).length = 2 * 2 ∧
    interlace 2 2 (deinterlace 2 2 [1, 2, 3, 4]) = [1, 2, 3, 4] :=
  ⟨by decide, deinterlace_interlace_roundtrip 2 2 [1, 2, 3, 4] (by decide)⟩

/-! C8: per-cycle ordering and acquire/release pairing. -/

/-- The channels step never touches the cycle frame count. -/
theorem reconfigureChannelsStep_frames (p : ParsedConfig) (beh : AlgBehavior) (cd : CompData)
    (alg : AlgState) (calls : List AlgCall) :
    (reconfigureChannelsStep p beh cd alg calls).1.num_frames = cd.num_frames := by
  unfold reconfigureChannelsStep
  split_ifs <;> simp [reconfigureParamsStep_cd]

/-- Reconfigure never touches the cycle frame count. -/
theorem reconfigure_num_frames (cd : CompData) (alg : AlgState) (blob : BlobState)
    (beh : AlgBehavior) :
    (google_rtc_audio_processing_reconfigure cd alg blob beh).1.num_frames = cd.num_frames := by
  cases blob with
  | absent => rfl
  | empty => rfl
  | invalid => rfl
  | present p =>
    by_cases hc : p.configPresent = true <;> by_cases hr : beh.reconfRet = 0 <;>
      simp [google_rtc_audio_processing_reconfigure, hc, hr, reconfigureChannelsStep_frames]

/-- The apply gate never touches the cycle frame count. -/
theorem applyStep_num_frames (cd : CompData) (alg : AlgState) (blob : BlobState)
    (beh : AlgBehavior) :
    (applyStep cd alg blob beh).1.num_frames = cd.num_frames := by
  unfold applyStep
  split_ifs <;> simp [reconfigure_num_frames]

/-- C8: every successful cycle performs, in fixed order, the apply gate,
then the reference acquire, analyze and release, then the capture acquire,
process and release, then the sink acquire and commit; each of the three
acquired views is paired with exactly one release/commit of the byte count
that was requested, namely the fixed frame count times the frame size of
that stream (for the sink, whose frame size equals the microphone's after
`prepare` enforced the same format on both). -/
theorem process_cycle_order (cd : CompData) (alg : AlgState) (blob : BlobState)
    (beh : AlgBehavior) (refFB srcFB sinkFB : Nat)
    (hok : (google_rtc_audio_processing_process cd alg blob beh refFB srcFB).2.2.2 = 0)
    (hfmt : sinkFB = srcFB) :
    (google_rtc_audio_processing_process cd alg blob beh refFB srcFB).2.2.1 =
      (if cd.reconfigure then [Ev.applyStep] else []) ++
      [Ev.acquireRef (cd.num_frames * refFB), Ev.analyze,
        Ev.releaseRef (cd.num_frames * refFB),
        Ev.acquireSrc (cd.num_frames * srcFB), Ev.processCapture,
        Ev.releaseSrc (cd.num_frames * srcFB),
        Ev.acquireDst (cd.num_frames * srcFB),
        Ev.commitDst (cd.num_frames * sinkFB)] := by
  subst hfmt
  have hnf := applyStep_num_frames cd alg blob beh
  by_cases h : (applyStep cd alg blob beh).2.2.2 = 0
  · unfold google_rtc_audio_processing_process
    simp [h, hnf]
  · unfold google_rtc_audio_processing_process at hok
    simp [h] at hok

/-- Witness for C8 at a concrete idle cycle. -/
theorem process_cycle_order_witness :
    (google_rtc_audio_processing_process cdIdle alg0 BlobState.absent beh0 4 4).2.2.1 =
      (if cdIdle.reconfigure then [Ev.applyStep] else []) ++
      [Ev.acquireRef (cdIdle.num_frames * 4), Ev.analyze,
        Ev.releaseRef (cdIdle.num_frames * 4),
        Ev.acquireSrc (cdIdle.num_frames * 4), Ev.processCapture,
        Ev.releaseSrc (cdIdle.num_frames * 4),
        Ev.acquireDst (cdIdle.num_frames * 4),
        Ev.commitDst (cdIdle.num_frames * 4)] :=
  process_cycle_order cdIdle alg0 BlobState.absent beh0 4 4 4 (by decide) rfl

/-! C5: prepare format checks. -/

/-- Component data whose capture channel count exceeds the microphone pin's. -/
def cdPrep : CompData :=
  { num_frames := 480, num_aec_reference_channels := 1, num_capture_channels := 2
    reconfigure := false, aec_reference_source := 0, raw_microphone_source := 0 }

/-- A mono reference source with exact IBS. -/
def refSrcC : SourceInfo :=
  { isFeedback := true, channels := 1, frameBytes := 2, minAvailable := 960 }

/-- A mono microphone source with exact IBS. -/
def micSrcC : SourceInfo :=
  { isFeedback := false, channels := 1, frameBytes := 2, minAvailable := 960 }

/-- A sink with matching rate and supported encoding. -/
def snkC : SinkInfo :=
  { rate := configSampleRateHz, frameFmt := FrameFormat.s16le, channels := 2
    frameBytes := 4, minFreeSpace := 1920 }

/-- A sink whose rate does not match the configured rate. -/
def badSnk : SinkInfo :=
  { rate := 44100, frameFmt := FrameFormat.s16le, channels := 2
    frameBytes := 4, minFreeSpace := 1920 }

/-- C5 (counterexample): a prepare call whose sink rate equals the
configured rate and whose encoding is the supported S16_LE nevertheless
fails with `-EINVAL`, because the microphone pin carries fewer channels
than the capture channel count — matching rate and encoding are not
sufficient for success. -/
theorem prepare_iff_counterexample :
    (google_rtc_audio_processing_prepare cdPrep alg0 BlobState.absent beh0
      [refSrcC, micSrcC] [snkC]).2.2 = -EINVAL ∧
    snkC.rate = configSampleRateHz ∧ snkC.frameFmt = FrameFormat.s16le := by
  decide

/-- C5 (amended): a matching sink rate and a supported sink encoding are
necessary for `prepare` to succeed, and an unmatched rate or unsupported
encoding always makes it fail with `-EINVAL`; they are not sufficient,
as success further requires the pin cardinality, channel-count, exact
IBS/OBS sizing and reconfigure conditions. -/
theorem prepare_rate_format_necessary (cd : CompData) (alg : AlgState) (blob : BlobState)
    (beh : AlgBehavior) (srcs : List SourceInfo) (snks : List SinkInfo) :
    ((google_rtc_audio_processing_prepare cd alg blob beh srcs snks).2.2 = 0 →
      (snks.getD 0 defaultSink).rate = configSampleRateHz ∧
      (snks.getD 0 defaultSink).frameFmt = FrameFormat.s16le) ∧
    ((snks.getD 0 defaultSink).rate ≠ configSampleRateHz ∨
        (snks.getD 0 defaultSink).frameFmt ≠ FrameFormat.s16le →
      (google_rtc_audio_processing_prepare cd alg blob beh srcs snks).2.2 = -EINVAL) := by
  have key : ∀ (cd1 : CompData) (aecCh micCh : Int) (refSrc micSrc : SourceInfo)
      (snk : SinkInfo),
      ((prepareChecks cd1 alg blob beh aecCh micCh refSrc micSrc snk).2.2 = 0 →
        snk.rate = configSampleRateHz ∧ snk.frameFmt = FrameFormat.s16le) ∧
      (snk.rate ≠ configSampleRateHz ∨ snk.frameFmt ≠ FrameFormat.s16le →
        (prepareChecks cd1 alg blob beh aecCh micCh refSrc micSrc snk).2.2 = -EINVAL) := by
    intro cd1 aecCh micCh refSrc micSrc snk
    unfold prepareChecks
    split_ifs with h1 h2 h3 h4 h5 h6 h7 h8 <;>
      refine ⟨fun hz => ?_, fun hbad => ?_⟩ <;>
      first
        | exact ⟨not_not.mp h5, not_not.mp h4⟩
        | rfl
        | (norm_num [EINVAL] at hz)
        | (rcases hbad with hb | hb
           · exact absurd hb h5
           · exact absurd hb h4)
  unfold google_rtc_audio_processing_prepare
  split_ifs with h1 h2
  · exact ⟨fun hz => absurd hz (by norm_num [EINVAL]), fun _ => rfl⟩
  · exact ⟨fun hz => absurd hz (by norm_num [EINVAL]), fun _ => rfl⟩
  · exact key _ _ _ _ _ _

/-- Witness for C5 at a concrete unmatched-rate sink. -/
theorem prepare_rate_format_necessary_witness :
    (google_rtc_audio_processing_prepare cdPrep alg0 BlobState.absent beh0
      [refSrcC, micSrcC] [badSnk]).2.2 = -EINVAL :=
  (prepare_rate_format_necessary cdPrep alg0 BlobState.absent beh0
    [refSrcC, micSrcC] [badSnk]).2 (Or.inl (by decide))

/-! C10: the `ceil_divide` helper of `sof/math/numbers.h`. -/

/-- Truncating remainder negates with the dividend. -/
theorem neg_tmod_eq (a b : Int) : (-a).tmod b = -(a.tmod b) := by
  rw [Int.tmod_def, Int.tmod_def, Int.neg_tdiv]
  ring

/-- The truncating remainder of a nonpositive dividend is nonpositive. -/
theorem tmod_nonpos_of_nonpos (a b : Int) (ha : a ≤ 0) : a.tmod b ≤ 0 := by
  have h := @Int.tmod_nonneg (-a) b (by linarith)
  rw [neg_tmod_eq] at h
  linarith

/-- Lower bound of the truncating remainder for a positive divisor. -/
theorem neg_lt_tmod (a b : Int) (hb : 0 < b) : -b < a.tmod b := by
  rcases le_or_lt 0 a with ha | ha
  · have h := @Int.tmod_nonneg a b ha
    linarith
  · have h := Int.tmod_lt_of_pos (-a) hb
    rw [neg_tmod_eq] at h
    linarith

/-- Bit 31 of the unsigned 32-bit representation of an in-range `int` is
its sign bit. -/
theorem toU32_testBit (x : Int) (h1 : -2147483648 ≤ x) (h2 : x < 2147483648) :
    (toU32 x).testBit 31 = decide (x < 0) := by
  rw [Nat.testBit_to_div_mod]
  have hpow : (2 : Nat) ^ 31 = 2147483648 := by norm_num
  rw [hpow]
  rcases lt_or_le x 0 with hx | hx
  · have hdiv : toU32 x / 2147483648 % 2 = 1 := by
      unfold toU32
      omega
    simp [hdiv, hx]
  · have hdiv : toU32 x / 2147483648 % 2 = 0 := by
      unfold toU32
      omega
    simp [hdiv, not_lt.mpr hx]

/-- The masked xor of the unsigned representations is zero exactly when the
two in-range operands have equal sign bits. -/
theorem sign_bits_eq_iff (a b : Int) (ha1 : -2147483648 ≤ a) (ha2 : a < 2147483648)
    (hb1 : -2147483648 ≤ b) (hb2 : b < 2147483648) :
    ((toU32 a ^^^ toU32 b) &&& 2147483648 = 0) ↔ ((a < 0) ↔ (b < 0)) := by
  have hmask : (2147483648 : Nat) = 2 ^ 31 := by norm_num
  rw [hmask, Nat.and_two_pow, Nat.testBit_xor, toU32_testBit a ha1 ha2,
    toU32_testBit b hb1 hb2]
  by_cases hA : a < 0 <;> by_cases hB : b < 0 <;> simp [hA, hB]

/-- The increment branch of `ceil_divide`. -/
theorem ceil_divide_incr (a b : Int) (h1 : (toU32 a ^^^ toU32 b) &&& 2147483648 = 0)
    (h2 : a.tdiv b * b ≠ a) : ceil_divide a b = a.tdiv b + 1 := by
  unfold ceil_divide
  exact if_pos ⟨h1, h2⟩

/-- The pass-through branch of `ceil_divide`. -/
theorem ceil_divide_skip (a b : Int)
    (h : ¬(((toU32 a ^^^ toU32 b) &&& 2147483648 = 0) ∧ a.tdiv b * b ≠ a)) :
    ceil_divide a b = a.tdiv b := by
  unfold ceil_divide
  exact if_neg h

/-- Rational ceiling from integer bracketing, positive divisor. -/
theorem ceil_eq_of_bounds_pos (a b q : Int) (hb : 0 < b)
    (hlo : (q - 1) * b < a) (hhi : a ≤ q * b) : ⌈(a : ℚ) / (b : ℚ)⌉ = q := by
  have hbQ : (0 : ℚ) < (b : ℚ) := by exact_mod_cast hb
  rw [Int.ceil_eq_iff]
  refine ⟨?_, ?_⟩
  · rw [lt_div_iff₀ hbQ]
    have h : ((q - 1 : Int) : ℚ) * (b : ℚ) < ((a : Int) : ℚ) := by exact_mod_cast hlo
    push_cast at h ⊢
    linarith
  · rw [div_le_iff₀ hbQ]
    have h : ((a : Int) : ℚ) ≤ ((q : Int) : ℚ) * (b : ℚ) := by exact_mod_cast hhi
    push_cast at h ⊢
    linarith

/-- Rational ceiling from integer bracketing, negative divisor. -/
theorem ceil_eq_of_bounds_neg (a b q : Int) (hb : b < 0)
    (hlo : q * b ≤ a) (hhi : a < (q - 1) * b) : ⌈(a : ℚ) / (b : ℚ)⌉ = q := by
  have hbQ : ((b : ℚ)) < 0 := by exact_mod_cast hb
  rw [Int.ceil_eq_iff]
  refine ⟨?_, ?_⟩
  · rw [lt_div_iff_of_neg hbQ]
    have h : ((a : Int) : ℚ) < ((q - 1 : Int) : ℚ) * (b : ℚ) := by exact_mod_cast hhi
    push_cast at h ⊢
    linarith
  · rw [div_le_iff_of_neg hbQ]
    have h : ((q : Int) : ℚ) * (b : ℚ) ≤ ((a : Int) : ℚ) := by exact_mod_cast hlo
    push_cast at h ⊢
    linarith

/-- C10: for in-range operands with a nonzero divisor (and the quotient
representable), `ceil_divide` returns the ceiling of the exact rational
quotient: with strictly different signs it passes the truncated quotient
through, and with the same sign it adds one to the truncated quotient
exactly when the divisor does not divide the dividend. -/
theorem ceil_divide_correct (a b : Int) (hb : b ≠ 0)
    (ha1 : -2147483648 ≤ a) (ha2 : a < 2147483648)
    (hb1 : -2147483648 ≤ b) (hb2 : b < 2147483648)
    (_hrep : ¬(a = -2147483648 ∧ b = -1)) :
    ceil_divide a b = ⌈(a : ℚ) / (b : ℚ)⌉ ∧
    (((a < 0 ∧ 0 < b) ∨ (0 < a ∧ b < 0)) → ceil_divide a b = a.tdiv b) ∧
    (((0 < a ∧ 0 < b) ∨ (a < 0 ∧ b < 0)) →
      (ceil_divide a b = a.tdiv b + 1 ↔ ¬ b ∣ a)) := by
  have hdecomp : b * a.tdiv b + a.tmod b = a := Int.tdiv_add_tmod a b
  have hsigns := sign_bits_eq_iff a b ha1 ha2 hb1 hb2
  have hdvd : a.tdiv b * b = a ↔ b ∣ a := by
    constructor
    · intro h
      exact ⟨a.tdiv b, by linarith⟩
    · intro h
      have h0 : a.tmod b = 0 := Int.tmod_eq_zero_of_dvd h
      have hcomm : a.tdiv b * b = b * a.tdiv b := by ring
      linarith
  have hmain : ceil_divide a b = ⌈(a : ℚ) / (b : ℚ)⌉ := by
    by_cases hss : (toU32 a ^^^ toU32 b) &&& 2147483648 = 0
    · have hsame : (a < 0) ↔ (b < 0) := hsigns.mp hss
      by_cases hex : a.tdiv b * b ≠ a
      · have hcd := ceil_divide_incr a b hss hex
        have hr0 : a.tmod b ≠ 0 := by
          intro h0
          exact hex (by have : a.tdiv b * b = b * a.tdiv b := by ring
                        linarith)
        rcases lt_trichotomy b 0 with hbneg | hb0 | hbpos
        · have haneg : a < 0 := hsame.mpr hbneg
          have hrb : b < a.tmod b := by
            have h1 := neg_lt_tmod a (-b) (by linarith)
            rw [Int.tmod_neg] at h1
            linarith
          have hrneg : a.tmod b < 0 :=
            lt_of_le_of_ne (tmod_nonpos_of_nonpos a b (le_of_lt haneg)) hr0
          rw [hcd, (ceil_eq_of_bounds_neg a b (a.tdiv b + 1) hbneg ?_ ?_).symm]
          · have he : (a.tdiv b + 1) * b = b * a.tdiv b + b := by ring
            linarith
          · have he : (a.tdiv b + 1 - 1) * b = b * a.tdiv b := by ring
            linarith
        · exact absurd hb0 hb
        · have hage : 0 ≤ a := by
            by_contra h
            exact absurd (hsame.mp (lt_of_not_le h)) (not_lt.mpr (le_of_lt hbpos))
          have hrpos : 0 < a.tmod b :=
            lt_of_le_of_ne (@Int.tmod_nonneg a b hage) (Ne.symm hr0)
          have hrlt : a.tmod b < b := Int.tmod_lt_of_pos a hbpos
          rw [hcd, (ceil_eq_of_bounds_pos a b (a.tdiv b + 1) hbpos ?_ ?_).symm]
          · have he : (a.tdiv b + 1 - 1) * b = b * a.tdiv b := by ring
            linarith
          · have he : (a.tdiv b + 1) * b = b * a.tdiv b + b := by ring
            linarith
      · push_neg at hex
        have hcd := ceil_divide_skip a b (fun hcon => hcon.2 hex)
        have hbQ : ((b : Int) : ℚ) ≠ 0 := Int.cast_ne_zero.mpr hb
        have hQ : (a : ℚ) / (b : ℚ) = ((a.tdiv b : Int) : ℚ) := by
          have hca : ((a : Int) : ℚ) = ((a.tdiv b : Int) : ℚ) * ((b : Int) : ℚ) := by
            exact_mod_cast congrArg (fun z => ((z : Int) : ℚ)) hex.symm
          rw [hca, mul_div_cancel_right₀ _ hbQ]
        rw [hcd, hQ, Int.ceil_intCast]
    · have hcd := ceil_divide_skip a b (fun hcon => hss hcon.1)
      have hdiff : ¬((a < 0) ↔ (b < 0)) := fun h => hss (hsigns.mpr h)
      rcases lt_trichotomy b 0 with hbneg | hb0 | hbpos
      · have hage : 0 ≤ a := by
          by_contra h
          exact hdiff ⟨fun _ => hbneg, fun _ => lt_of_not_le h⟩
        have hrge : 0 ≤ a.tmod b := @Int.tmod_nonneg a b hage
        have hrlt : a.tmod b < -b := by
          have h1 := Int.tmod_lt_of_pos a (show (0 : Int) < -b by linarith)
          rw [Int.tmod_neg] at h1
          linarith
        rw [hcd, (ceil_eq_of_bounds_neg a b (a.tdiv b) hbneg ?_ ?_).symm]
        · have he : a.tdiv b * b = b * a.tdiv b := by ring
          linarith
        · have he : (a.tdiv b - 1) * b = b * a.tdiv b - b := by ring
          linarith
      · exact absurd hb0 hb
      · have haneg : a < 0 := by
          by_contra h
          exact hdiff ⟨fun ha => absurd ha h,
            fun hbn => absurd hbn (not_lt.mpr (le_of_lt hbpos))⟩
        have hrle : a.tmod b ≤ 0 := tmod_nonpos_of_nonpos a b (le_of_lt haneg)
        have hrgt : -b < a.tmod b := neg_lt_tmod a b hbpos
        rw [hcd, (ceil_eq_of_bounds_pos a b (a.tdiv b) hbpos ?_ ?_).symm]
        · have he : (a.tdiv b - 1) * b = b * a.tdiv b - b := by ring
          linarith
        · have he : a.tdiv b * b = b * a.tdiv b := by ring
          linarith
  refine ⟨hmain, ?_, ?_⟩
  · intro hcase
    have hdiffiff : ¬((a < 0) ↔ (b < 0)) := by
      rcases hcase with ⟨ha, hbp⟩ | ⟨hap, hbn⟩
      · exact fun h => absurd (h.mp ha) (not_lt.mpr (le_of_lt hbp))
      · exact fun h => absurd (h.mpr hbn) (not_lt.mpr (le_of_lt hap))
    exact ceil_divide_skip a b (fun hcon => hdiffiff (hsigns.mp hcon.1))
  · intro hcase
    have hsamef : (a < 0) ↔ (b < 0) := by
      rcases hcase with ⟨hap, hbp⟩ | ⟨han, hbn⟩
      · exact ⟨fun h => absurd h (not_lt.mpr (le_of_lt hap)),
          fun h => absurd h (not_lt.mpr (le_of_lt hbp))⟩
      · exact ⟨fun _ => hbn, fun _ => han⟩
    have hsst : (toU32 a ^^^ toU32 b) &&& 2147483648 = 0 := hsigns.mpr hsamef
    constructor
    · intro hincr hdv
      have hex : a.tdiv b * b = a := hdvd.mpr hdv
      have hskip := ceil_divide_skip a b (fun hcon => hcon.2 hex)
      rw [hskip] at hincr
      linarith
    · intro hndv
      exact ceil_divide_incr a b hsst (fun h => hndv (hdvd.mp h))

/-- Witness for C10 at the divisor-does-not-divide example of the source
comment: `ceil_divide(10, 3)` is the ceiling of `10/3`. -/
theorem ceil_divide_correct_witness :
    ceil_divide 10 3 = ⌈(10 : ℚ) / (3 : ℚ)⌉ ∧
    ((((10 : Int) < 0 ∧ (0 : Int) < 3) ∨ ((0 : Int) < 10 ∧ (3 : Int) < 0)) →
      ceil_divide 10 3 = Int.tdiv 10 3) ∧
    ((((0 : Int) < 10 ∧ (0 : Int) < 3) ∨ (((10 : Int) < 0 ∧ (3 : Int) < 0))) →
      (ceil_divide 10 3 = Int.tdiv 10 3 + 1 ↔ ¬ (3 : Int) ∣ 10)) :=
  ceil_divide_correct 10 3 (by decide) (by decide) (by decide) (by decide) (by decide)
    (by decide)

end GoogleRtcAec
